import Mathlib

/-!
Shallow embedding of the PHP CS Fixer VS Code extension
(src/extension.ts) and proofs about its fix workflow.

The embedding models:
- `readConfig`'s executable-path resolution (extension.ts lines 76-78);
- `getArgs`'s argument construction and config-file discovery
  (extension.ts lines 120-158);
- `fixDocument`'s busy guard, process-outcome handling, exit-code
  message table, notifications and cleanup (extension.ts lines 160-213);
- `registerDocumentProvider`'s edit construction (extension.ts
  lines 102-119).

External effects (filesystem existence checks, the spawned process's
outcome, platform, home directory) are passed in explicitly.
-/

namespace PhpCsFixer

/-- JavaScript-style string prefix test, computed on the character list
so that it reduces in the kernel. -/
def strStartsWith (s pre : String) : Bool :=
  pre.toList.isPrefixOf s.toList

/-- JavaScript `String.prototype.split` with a one-character separator:
keeps empty pieces, and splitting the empty string yields one empty
piece. -/
def splitCharList (sep : Char) : List Char → List (List Char)
  | [] => [[]]
  | c :: cs =>
    let rest := splitCharList sep cs
    if c = sep then [] :: rest
    else
      match rest with
      | [] => [[c]]
      | r :: rs => (c :: r) :: rs

/-- JavaScript `s.split(sep)` for a single-character separator. -/
def jsSplit (sep : Char) (s : String) : List String :=
  (splitCharList sep s.toList).map (fun cs => String.mk cs)

/-- Replace the first occurrence of `pat` in a character list, like
JavaScript `String.prototype.replace` with a string pattern. -/
def replaceFirstAux (pat repl : List Char) : List Char → List Char
  | [] => []
  | c :: cs =>
    if pat.isPrefixOf (c :: cs) then repl ++ (c :: cs).drop pat.length
    else c :: replaceFirstAux pat repl cs

/-- JavaScript `s.replace(pat, repl)` with a string pattern: replaces
only the first occurrence (for nonempty `pat`). -/
def replaceFirst (s pat repl : String) : String :=
  String.mk (replaceFirstAux pat.toList repl.toList s.toList)

/-- The regex replace `s.replace(/^~\x2f/, home + "/")` from
extension.ts lines 78 and 123: expand a leading "~/" to the home
directory. -/
def expandLeadingTilde (home s : String) : String :=
  if strStartsWith s "~/" then home ++ "/" ++ String.mk (s.toList.drop 2) else s

/-- Default executable name by platform (extension.ts line 76). -/
def defaultExec (platform : String) : String :=
  if platform = "win32" then "php-cs-fixer.bat" else "php-cs-fixer"

/-- Resolution of `this.execPath` in `readConfig` (extension.ts lines
76-78): a falsy (unset or empty) `execPath` setting falls back to the
platform default, then the literal placeholder `$\x7bextensionPath\x7d`
is substituted by the extension directory and a leading `~/` is expanded
to the home directory. -/
def resolveExecPath (execPath : Option String) (platform dirname home : String) : String :=
  let base :=
    match execPath with
    | none => defaultExec platform
    | some p => if p = "" then defaultExec platform else p
  expandLeadingTilde home (replaceFirst base "$\x7bextensionPath\x7d" dirname)

/-- JSON values, for the `rules` setting when it is a structured
mapping. -/
inductive Json where
  | jnull
  | jbool (b : Bool)
  | jnum (n : Int)
  | jstr (s : String)
  | jarr (xs : List Json)
  | jobj (fields : List (String × Json))

/-- Escaping of one character inside a JSON string literal. -/
def Json.escapeChar (c : Char) : String :=
  if c = '\"' then "\\\""
  else if c = '\\' then "\\\\"
  else if c = '\n' then "\\n"
  else if c = '\t' then "\\t"
  else if c = '\r' then "\\r"
  else String.singleton c

/-- A JSON string literal with escaping. -/
def Json.quote (s : String) : String :=
  "\"" ++ String.join (s.toList.map Json.escapeChar) ++ "\""

mutual

/-- `JSON.stringify` (no indentation), as used on the `rules` object in
extension.ts line 152. -/
def Json.stringify : Json → String
  | .jnull => "null"
  | .jbool true => "true"
  | .jbool false => "false"
  | .jnum n => toString n
  | .jstr s => Json.quote s
  | .jarr xs => "[" ++ Json.stringifyList xs ++ "]"
  | .jobj fs => "\x7b" ++ Json.stringifyFields fs ++ "\x7d"

/-- Comma-separated serialization of a JSON array's elements. -/
def Json.stringifyList : List Json → String
  | [] => ""
  | [x] => Json.stringify x
  | x :: y :: xs => Json.stringify x ++ "," ++ Json.stringifyList (y :: xs)

/-- Comma-separated serialization of a JSON object's fields. -/
def Json.stringifyFields : List (String × Json) → String
  | [] => ""
  | [(k, v)] => Json.quote k ++ ":" ++ Json.stringify v
  | (k, v) :: f :: fs =>
      Json.quote k ++ ":" ++ Json.stringify v ++ "," ++ Json.stringifyFields (f :: fs)

end

/-- The `rules` setting: absent, a string, or a structured mapping
(extension.ts interface Config, line 40). -/
inductive RulesSetting where
  | unset
  | str (s : String)
  | obj (fields : List (String × Json))

/-- JavaScript truthiness of the `rules` setting as tested by
`if (!useConfig && this.config.rules)` (extension.ts line 150):
`undefined` and the empty string are falsy, any object is truthy. -/
def RulesSetting.truthy : RulesSetting → Bool
  | .unset => false
  | .str s => s ≠ ""
  | .obj _ => true

/-- The fixed leading tokens of `getArgs` (extension.ts line 121). -/
def baseArgs : List String :=
  ["fix", "--using-cache=no", "--path-mode=override", "-vv"]

/-- `searchPaths` from extension.ts lines 131-133: when a workspace
root exists, the `.vscode/`-prefixed directory then the root itself;
otherwise no search paths. -/
def searchPathsFor : Option String → List String
  | some root => [root ++ "/.vscode/", root ++ "/"]
  | none => []

/-- The expanded candidate config-file list of `getArgs` (extension.ts
lines 123 and 134-142): split the `config` setting on `;`, drop empty
entries, expand a leading `~/`; an absolute entry stands for itself, a
relative entry is prefixed by each search path in order. `isAbs` stands
for `path.isAbsolute`, platform dependent. -/
def candidateFiles (isAbs : String → Bool) (home : String) (rootPath : Option String)
    (configSetting : String) : List String :=
  let cFiles := ((jsSplit ';' configSetting).filter (fun f => f ≠ "")).map (expandLeadingTilde home)
  let searchPaths := searchPathsFor rootPath
  cFiles.flatMap (fun file =>
    if isAbs file then [file] else searchPaths.map (fun sp => sp ++ file))

/-- `getArgs` (extension.ts lines 120-158): base tokens, then
`--config=` for the first existing candidate config file (the scan
stops at the first hit), and otherwise, when `rules` is truthy, a
`--rules=` token holding the JSON serialization of a structured mapping
or the raw string. `existsSync` stands for the filesystem existence
check. -/
def getArgs (isAbs existsSync : String → Bool) (home : String) (rootPath : Option String)
    (configSetting : String) (rules : RulesSetting) : List String :=
  let files := candidateFiles isAbs home rootPath configSetting
  let found := files.find? existsSync
  let configArg :=
    match found with
    | some f => ["--config=" ++ f]
    | none => []
  let rulesArg :=
    if found.isNone && rules.truthy then
      match rules with
      | .obj fs => ["--rules=" ++ Json.stringify (.jobj fs)]
      | .str s => ["--rules=" ++ s]
      | .unset => []
    else []
  baseArgs ++ configArg ++ rulesArg

/-- First result of an option-valued probe over a list, used to state
the specification's entry-by-entry search order. -/
def firstHit (choose : String → Option String) : List String → Option String
  | [] => none
  | e :: es =>
    match choose e with
    | some f => some f
    | none => firstHit choose es

/-- Modelled from the spec's words (spec.md sections 4.2 and 8.1): the
config-file discovery probes entry-by-entry in configuration order,
trying the `.vscode/`-prefixed variant of an entry before the
root-prefixed variant of the same entry, and the first candidate that
exists on disk wins. Stated as a second definition to compare with
`getArgs`' scan over `candidateFiles`. -/
def specConfigChoice (isAbs existsSync : String → Bool) (home root configSetting : String) :
    Option String :=
  let entries := ((jsSplit ';' configSetting).filter (fun f => f ≠ "")).map (expandLeadingTilde home)
  firstHit (fun e =>
    if isAbs e then (if existsSync e then some e else none)
    else if existsSync (root ++ "/.vscode/" ++ e) then some (root ++ "/.vscode/" ++ e)
    else if existsSync (root ++ "/" ++ e) then some (root ++ "/" ++ e)
    else none) entries

/-- The exit-code message table `msgs` of `fixDocument` (extension.ts
lines 196-203), with the fallback for any unlisted code. -/
def exitMsg (code : Int) : String :=
  if code = 1 then "PHP CS Fixer: php general error."
  else if code = 16 then "PHP CS Fixer: Configuration error of the application."
  else if code = 32 then "PHP CS Fixer: Configuration error of a Fixer."
  else if code = 64 then "PHP CS Fixer: Exception raised within the application."
  else "PHP CS Fixer: Unknown error."

/-- Modelled from the spec's words (spec.md section 4.3, Failed): the
claimed table maps 16 to a fixer-configuration error and 32 to an
application-configuration error, using the program's own message
strings for those two categories. Stated for comparison with
`exitMsg`. -/
def specExitMsg (code : Int) : String :=
  if code = 1 then "PHP CS Fixer: php general error."
  else if code = 16 then "PHP CS Fixer: Configuration error of a Fixer."
  else if code = 32 then "PHP CS Fixer: Configuration error of the application."
  else if code = 64 then "PHP CS Fixer: Exception raised within the application."
  else "PHP CS Fixer: Unknown error."

/-- A user-facing message sent through `showView` (extension.ts lines
233-248). -/
inductive Notification where
  | success (msg : String)
  | info (msg : String)
  | error (msg : String)
  | warning (msg : String)
deriving DecidableEq

/-- How the spawned process terminates, as observed by the handlers of
`fixDocument`: either the `error` event fires because the process could
not be spawned (and `exit` never fires), or the `exit` event fires with
an exit code, at which point the temp file holds `tempContent`. -/
inductive ProcOutcome where
  | spawnError (err : String)
  | exited (code : Int) (tempContent : String)
deriving DecidableEq

/-- Settlement of the promise returned by `fixDocument`:
resolved with a string, resolved with `undefined` (the early `return`
on the busy path of an async function), rejected with a message string,
rejected with no argument, or rejected with a spawn error object. -/
inductive FixResult where
  | resolved (text : String)
  | resolvedNone
  | rejectedMsg (msg : String)
  | rejectedNone
  | rejectedErr (err : String)
deriving DecidableEq

/-- Observable effects of one call to `fixDocument`: promise outcome,
notifications issued by the exit handler, whether a process was
spawned, whether the temp file was written, whether `unlink` was
invoked on it, and the final value of the `isFixing` flag. -/
structure FixEffects where
  result : FixResult
  notifications : List Notification
  spawned : Bool
  tempWritten : Bool
  tempDeleted : Bool
  isFixingAfter : Bool
deriving DecidableEq

/-- `fixDocument` (extension.ts lines 160-213) as a function of the
busy flag at entry, the document text, and the process outcome. On the
busy path the async function returns `undefined` at once. Otherwise the
temp file is written and the process spawned; the `error` handler only
rejects, while the `exit` handler resolves or rejects, notifies, and
performs the cleanup (`unlink` and `isFixing = false`). -/
def fixDocument (isFixing : Bool) (text : String) (outcome : ProcOutcome) : FixEffects :=
  if isFixing then
    { result := .resolvedNone, notifications := [], spawned := false,
      tempWritten := false, tempDeleted := false, isFixingAfter := isFixing }
  else
    match outcome with
    | .spawnError err =>
        { result := .rejectedErr err, notifications := [], spawned := true,
          tempWritten := true, tempDeleted := false, isFixingAfter := true }
    | .exited code content =>
        if code = 0 then
          { result := if content.length > 0 then .resolved content else .rejectedNone,
            notifications := [.success "PHP CS Fixer: Fixed all files!"],
            spawned := true, tempWritten := true, tempDeleted := true,
            isFixingAfter := false }
        else
          { result := .rejectedMsg (exitMsg code),
            notifications := if code ≠ 16 then [.error (exitMsg code)] else [],
            spawned := true, tempWritten := true, tempDeleted := true,
            isFixingAfter := false }

/-- An editor position (line, character). -/
structure Position where
  line : Nat
  character : Nat
deriving DecidableEq

/-- An editor range from `start` to `stop` (named `end` in the editor
API, a reserved word here). -/
structure Range where
  start : Position
  stop : Position
deriving DecidableEq

/-- A text edit; `newText` is an `Option` because the JavaScript value
placed there can be `undefined`. -/
structure TextEdit where
  range : Range
  newText : Option String
deriving DecidableEq

/-- The narrow slice of the editor document used by
`registerDocumentProvider`: `text` is `document.getText()` and `lines`
the per-line contents backing `lineCount` and `lineAt`. -/
structure Doc where
  text : String
  lines : List String
deriving DecidableEq

/-- `document.lineCount`. -/
def Doc.lineCount (d : Doc) : Nat := d.lines.length

/-- `document.lineAt(i).range.end`: the position at line `i` after the
last character of that line. -/
def Doc.lineAtRangeEnd (d : Doc) (i : Nat) : Position :=
  ⟨i, (d.lines.getD i "").length⟩

/-- `registerDocumentProvider` (extension.ts lines 102-119) as a
function of the fix promise's settlement: a resolved text differing
from the document text yields one whole-document edit, an equal text
yields no edit, a resolved `undefined` compares unequal to the text and
yields an edit carrying `undefined`, and any rejection is propagated. -/
def registerDocumentProvider (d : Doc) (fix : FixResult) :
    Except (Option String) (List TextEdit) :=
  let oText := d.text
  let range : Range := ⟨⟨0, 0⟩, d.lineAtRangeEnd (d.lineCount - 1)⟩
  match fix with
  | .resolved t => if t ≠ oText then .ok [⟨range, some t⟩] else .ok []
  | .resolvedNone => .ok [⟨range, none⟩]
  | .rejectedMsg m => .error (some m)
  | .rejectedNone => .error none
  | .rejectedErr e => .error (some e)

theorem find?_flatMap {α β : Type} (p : β → Bool) (g : α → List β) :
    ∀ l : List α, (l.flatMap g).find? p = l.findSome? (fun a => (g a).find? p) := by
  intro l
  induction l with
  | nil => rfl
  | cons a l ih =>
    rw [List.flatMap_cons, List.find?_append, ih]
    cases h : (g a).find? p <;> simp [List.findSome?_cons, h, Option.or]

theorem firstHit_eq_findSome (choose : String → Option String) :
    ∀ l : List String, firstHit choose l = l.findSome? choose := by
  intro l
  induction l with
  | nil => rfl
  | cons e es ih =>
    unfold firstHit
    rw [List.findSome?_cons]
    cases choose e <;> simp [ih]

/-- C5: the scan of `getArgs` over the flattened candidate list equals
the spec's entry-by-entry probing — per entry in configuration order,
the `.vscode/`-prefixed variant before the root-prefixed variant, first
existing file wins — and when a candidate is found the argument list
ends with that single `--config=` token and nothing else. -/
theorem getArgs_config_discovery (isAbs existsSync : String → Bool)
    (home root configSetting : String) (rules : RulesSetting) :
    (candidateFiles isAbs home (some root) configSetting).find? existsSync
      = specConfigChoice isAbs existsSync home root configSetting ∧
    (∀ f, specConfigChoice isAbs existsSync home root configSetting = some f →
      getArgs isAbs existsSync home (some root) configSetting rules
        = baseArgs ++ ["--config=" ++ f]) := by
  have key : (candidateFiles isAbs home (some root) configSetting).find? existsSync
      = specConfigChoice isAbs existsSync home root configSetting := by
    simp only [candidateFiles, specConfigChoice, searchPathsFor]
    rw [find?_flatMap, firstHit_eq_findSome]
    congr 1
    funext e
    by_cases ha : isAbs e
    · cases he : existsSync e <;> simp [ha, he, List.find?]
    · simp only [ha, if_false, Bool.false_eq_true, List.map_cons, List.map_nil]
      cases h1 : existsSync (root ++ "/.vscode/" ++ e) <;>
        cases h2 : existsSync (root ++ "/" ++ e) <;>
          simp [List.find?, h1, h2]
  refine ⟨key, fun f hf => ?_⟩
  have hfind : (candidateFiles isAbs home (some root) configSetting).find? existsSync
      = some f := by rw [key, hf]
  simp [getArgs, hfind]

/-- Witness for C5: with entries `a;b.php`, no absolute paths, and only
`<root>/.vscode/b.php` existing, discovery picks that file. -/
theorem getArgs_config_discovery_witness :
    specConfigChoice (fun _ => false) (fun p => p == "/r/.vscode/b.php") "/h" "/r" "a;b.php"
      = some "/r/.vscode/b.php" ∧
    getArgs (fun _ => false) (fun p => p == "/r/.vscode/b.php") "/h" (some "/r") "a;b.php"
        (.str "@PSR12")
      = baseArgs ++ ["--config=/r/.vscode/b.php"] :=
  ⟨by decide,
   (getArgs_config_discovery (fun _ => false) (fun p => p == "/r/.vscode/b.php") "/h" "/r"
      "a;b.php" (.str "@PSR12")).2 "/r/.vscode/b.php" (by decide)⟩

/-- C8: when config-file discovery hits, the argument list carries the
`--config=` token and no `--rules=` token whatever the `rules` setting;
when it misses, a truthy `rules` contributes exactly one `--rules=`
token holding the JSON serialization of a structured mapping or the raw
string, and a falsy `rules` contributes nothing. -/
theorem getArgs_rules_flag (isAbs existsSync : String → Bool) (home : String)
    (rootPath : Option String) (configSetting : String) (rules : RulesSetting) :
    (∀ f, (candidateFiles isAbs home rootPath configSetting).find? existsSync = some f →
      getArgs isAbs existsSync home rootPath configSetting rules
        = baseArgs ++ ["--config=" ++ f]) ∧
    ((candidateFiles isAbs home rootPath configSetting).find? existsSync = none →
      getArgs isAbs existsSync home rootPath configSetting rules
        = baseArgs ++
          (match rules with
           | .unset => []
           | .str s => if s = "" then [] else ["--rules=" ++ s]
           | .obj fs => ["--rules=" ++ Json.stringify (.jobj fs)])) := by
  constructor
  · intro f hf
    simp [getArgs, hf]
  · intro hf
    cases rules with
    | unset => simp [getArgs, hf, RulesSetting.truthy]
    | str s =>
      by_cases hs : s = "" <;> simp [getArgs, hf, RulesSetting.truthy, hs]
    | obj fs => simp [getArgs, hf, RulesSetting.truthy]

/-- Witness for C8: an existing candidate suppresses `--rules=`, and
with no candidate a string `rules` passes through unmodified. -/
theorem getArgs_rules_flag_witness :
    (getArgs (fun _ => false) (fun p => p == "/r/x.dist") "/h" (some "/r") "x.dist"
        (.str "@PSR12")
      = baseArgs ++ ["--config=/r/x.dist"]) ∧
    (getArgs (fun _ => false) (fun _ => false) "/h" none "x.dist" (.str "@PSR12")
      = baseArgs ++ ["--rules=@PSR12"]) := by
  constructor
  · exact (getArgs_rules_flag (fun _ => false) (fun p => p == "/r/x.dist") "/h" (some "/r")
      "x.dist" (.str "@PSR12")).1 "/r/x.dist" (by decide)
  · have h := (getArgs_rules_flag (fun _ => false) (fun _ => false) "/h" none "x.dist"
      (.str "@PSR12")).2 (by decide)
    simpa using h

/-- C9: a resolved fix text differing from the document text yields one
edit spanning the whole document — from position (0,0) to the end of
the last line — carrying the fixed text, and an equal text yields the
empty edit list. -/
theorem provider_whole_document_edit (d : Doc) (t : String) :
    registerDocumentProvider d (.resolved t) =
      if t = d.text then .ok []
      else .ok [⟨⟨⟨0, 0⟩, ⟨d.lineCount - 1, (d.lines.getD (d.lineCount - 1) "").length⟩⟩,
        some t⟩] := by
  by_cases h : t = d.text <;>
    simp [registerDocumentProvider, Doc.lineAtRangeEnd, h]

/-- C10: an unset or empty `execPath` resolves to the platform default
executable name, to which the extension-path substitution and the
leading-tilde expansion are applied. -/
theorem resolveExecPath_default (platform dirname home : String) :
    resolveExecPath none platform dirname home
      = expandLeadingTilde home
          (replaceFirst (defaultExec platform) "$\x7bextensionPath\x7d" dirname) ∧
    resolveExecPath (some "") platform dirname home
      = resolveExecPath none platform dirname home ∧
    defaultExec "win32" = "php-cs-fixer.bat" ∧
    (platform ≠ "win32" → defaultExec platform = "php-cs-fixer") := by
  refine ⟨rfl, rfl, rfl, fun h => ?_⟩
  simp [defaultExec, h]

/-- Witness for C10 on a non-Windows platform. -/
theorem resolveExecPath_default_witness :
    ("linux" : String) ≠ "win32" ∧ defaultExec "linux" = "php-cs-fixer" :=
  ⟨by decide, (resolveExecPath_default "linux" "/ext" "/home/u").2.2.2 (by decide)⟩

/-- C1: on the process-spawn-error path (the `error` event fires and
`exit` never does) `fixDocument` rejects with the error but invokes no
`unlink` and leaves the `isFixing` flag set, while both exit paths do
clean up: the claimed all-paths cleanup fails exactly on the spawn-error
path, stranding the busy flag. -/
theorem fixDocument_spawnError_skips_cleanup :
    (fixDocument false "<?php\n" (.spawnError "spawn php-cs-fixer ENOENT")).result
      = .rejectedErr "spawn php-cs-fixer ENOENT" ∧
    (fixDocument false "<?php\n" (.spawnError "spawn php-cs-fixer ENOENT")).tempDeleted = false ∧
    (fixDocument false "<?php\n" (.spawnError "spawn php-cs-fixer ENOENT")).isFixingAfter = true ∧
    (fixDocument false "<?php\n" (.exited 0 "x")).tempDeleted = true ∧
    (fixDocument false "<?php\n" (.exited 0 "x")).isFixingAfter = false ∧
    (fixDocument false "<?php\n" (.exited 8 "")).tempDeleted = true ∧
    (fixDocument false "<?php\n" (.exited 8 "")).isFixingAfter = false :=
  ⟨rfl, rfl, rfl, rfl, rfl, rfl, rfl⟩

/-- C2: when the process exits with code 0 and the temp file reads back
empty, the promise is rejected with no argument, yet the success
notification is still issued. -/
theorem fixDocument_exit0_empty_rejects (text : String) :
    (fixDocument false text (.exited 0 "")).result = .rejectedNone ∧
    (fixDocument false text (.exited 0 "")).notifications
      = [.success "PHP CS Fixer: Fixed all files!"] :=
  ⟨rfl, rfl⟩

/-- C3 counterexample: the claim's table maps exit code 16 to a
fixer-configuration error and 32 to an application-configuration error,
but the code's `msgs` table maps 16 to the application-configuration
message and 32 to the fixer-configuration message — the two entries are
swapped relative to the claim. -/
theorem exitCode16_message_not_fixer_error :
    specExitMsg 16 = "PHP CS Fixer: Configuration error of a Fixer." ∧
    (fixDocument false "t" (.exited 16 "x")).result
      = .rejectedMsg "PHP CS Fixer: Configuration error of the application." ∧
    exitMsg 16 ≠ specExitMsg 16 ∧ exitMsg 32 ≠ specExitMsg 32 :=
  ⟨rfl, rfl, by decide, by decide⟩

/-- C3 amended: for every nonzero exit code the rejection reason is the
message from the fixed table mapping 1 to the general error, 16 to the
application-configuration error, 32 to the fixer-configuration error,
64 to the exception-raised error and any other code to the unknown
error; the mapped message is the rejection reason also when the
notification is suppressed (code 16 included). -/
theorem exitMsg_rejection_table (code : Int) (text content : String) (h : code ≠ 0) :
    (fixDocument false text (.exited code content)).result = .rejectedMsg (exitMsg code) ∧
    exitMsg 1 = "PHP CS Fixer: php general error." ∧
    exitMsg 16 = "PHP CS Fixer: Configuration error of the application." ∧
    exitMsg 32 = "PHP CS Fixer: Configuration error of a Fixer." ∧
    exitMsg 64 = "PHP CS Fixer: Exception raised within the application." ∧
    (code ≠ 1 → code ≠ 16 → code ≠ 32 → code ≠ 64 →
      exitMsg code = "PHP CS Fixer: Unknown error.") := by
  refine ⟨?_, rfl, rfl, rfl, rfl, ?_⟩
  · simp [fixDocument, h]
  · intro h1 h16 h32 h64
    simp [exitMsg, h1, h16, h32, h64]

/-- Witness for the amended C3 at exit code 16 (the suppressed
notification case). -/
theorem exitMsg_rejection_table_witness :
    (16 : Int) ≠ 0 ∧
    ((fixDocument false "t" (.exited 16 "")).result = .rejectedMsg (exitMsg 16) ∧
     exitMsg 1 = "PHP CS Fixer: php general error." ∧
     exitMsg 16 = "PHP CS Fixer: Configuration error of the application." ∧
     exitMsg 32 = "PHP CS Fixer: Configuration error of a Fixer." ∧
     exitMsg 64 = "PHP CS Fixer: Exception raised within the application." ∧
     ((16 : Int) ≠ 1 → (16 : Int) ≠ 16 → (16 : Int) ≠ 32 → (16 : Int) ≠ 64 →
       exitMsg 16 = "PHP CS Fixer: Unknown error.")) :=
  ⟨by decide, exitMsg_rejection_table 16 "t" "" (by decide)⟩

/-- C4: a fix request arriving while the busy flag is set returns at
once with no result, spawns no process, writes no temp file, issues no
notification, deletes nothing and leaves all state unchanged, whatever
the outcome of the in-flight operation. -/
theorem fixDocument_busy_noop (text : String) (outcome : ProcOutcome) :
    fixDocument true text outcome =
      { result := .resolvedNone, notifications := [], spawned := false,
        tempWritten := false, tempDeleted := false, isFixingAfter := true } :=
  rfl

/-- C6: exit code 16 rejects with exactly the application-configuration
message and shows no notification; exit code 64 rejects with exactly the
exception-raised message and shows an error notification. -/
theorem fixDocument_exit16_exit64 (text c16 c64 : String) :
    ((fixDocument false text (.exited 16 c16)).result
        = .rejectedMsg "PHP CS Fixer: Configuration error of the application." ∧
      (fixDocument false text (.exited 16 c16)).notifications = []) ∧
    ((fixDocument false text (.exited 64 c64)).result
        = .rejectedMsg "PHP CS Fixer: Exception raised within the application." ∧
      (fixDocument false text (.exited 64 c64)).notifications
        = [.error "PHP CS Fixer: Exception raised within the application."]) :=
  ⟨⟨rfl, rfl⟩, ⟨rfl, rfl⟩⟩

/-- C7: when the process exits with code 0 and the temp file reads back
non-empty, the promise resolves with exactly that content. -/
theorem fixDocument_exit0_nonempty (text content : String) (h : 0 < content.length) :
    (fixDocument false text (.exited 0 content)).result = .resolved content := by
  simp [fixDocument, h]

/-- Witness for C7 at the spec's scenario input. -/
theorem fixDocument_exit0_nonempty_witness :
    0 < ("<?php echo 1;" : String).length ∧
    (fixDocument false "x" (.exited 0 "<?php echo 1;")).result = .resolved "<?php echo 1;" :=
  ⟨by decide, fixDocument_exit0_nonempty "x" "<?php echo 1;" (by decide)⟩

end PhpCsFixer
